import Mathlib

/-!
Shallow embedding of `src/core/textures/VideoBaseTexture.js`

This file embeds the `VideoBaseTexture` class of the repository in Lean 4 and
proves the behavioural properties claimed by the specification.

Modelling conventions:

* A video element (`HTMLVideoElement`) is the structure `Source`.  Its
  observable fields (`readyState`, `width`, `height`, `videoWidth`,
  `videoHeight`, `complete`, `_pixiId`) are carried verbatim; its side-effect
  surface (registered event listeners, calls to `play()` / `load()`, appended
  `<source>` children) is carried as explicit data so that theorems can talk
  about it.
* A `VideoBaseTexture` instance is the structure `Tex`.  The JS object's
  reference to the video element is `Tex.source : Option Source` (`null`
  becomes `none`).  Side effects performed by the instance
  (`window.requestAnimationFrame`, the base texture's `update()`,
  `emit('loaded')`) are counted in the fields `rafCalls`, `updateCalls`,
  `loadedEmits`.
* Machine-level identity of the bound handler functions is reduced to the
  enumeration `Handler`: the constructor registers `_onCanPlay` (one bound
  function used for both readiness events) and fresh bindings of
  `_onPlayStart` / `_onPlayStop`.
-/

/-- The DOM constant `HTMLMediaElement.HAVE_FUTURE_DATA` (accessed in the
source as `source.HAVE_FUTURE_DATA`). -/
def HAVE_FUTURE_DATA : Nat := 3

/-- The DOM constant `HTMLMediaElement.HAVE_ENOUGH_DATA` (accessed in the
source as `source.HAVE_ENOUGH_DATA`). -/
def HAVE_ENOUGH_DATA : Nat := 4

/-- A `<source>` child element created by `createSource`: its `src` URL and
its `type` mime string. -/
structure SourceElem where
  src : String
  type : String
deriving DecidableEq, Repr

/-- Identity of the listener functions the constructor can register:
the bound `_onCanPlay`, and the bound `_onPlayStart` / `_onPlayStop`. -/
inductive Handler where
  | canPlayH
  | playH
  | pauseH
deriving DecidableEq, Repr

/-- The video element.  `pixiId` is the `_pixiId` expando property (the
resource identity tag), `listeners` the currently registered
`(event name, handler)` pairs, `playCalls` / `loadCalls` count invocations of
`play()` / `load()`, and `children` are the appended `<source>` elements. -/
structure Source where
  readyState : Nat
  width : Nat
  height : Nat
  videoWidth : Nat
  videoHeight : Nat
  complete : Bool
  pixiId : Option Nat
  listeners : List (String × Handler)
  playCalls : Nat
  loadCalls : Nat
  children : List SourceElem
deriving DecidableEq, Repr

/-- The `VideoBaseTexture` instance state.  `loadedFlag` is the source's
`__loaded` guard; `rafCalls`, `updateCalls` and `loadedEmits` count the
instance's calls to `window.requestAnimationFrame`, to the base texture's
`update()`, and its `emit('loaded', this)` dispatches. -/
structure Tex where
  source : Option Source
  autoUpdate : Bool
  hasLoaded : Bool
  loadedFlag : Bool
  width : Nat
  height : Nat
  rafCalls : Nat
  updateCalls : Nat
  loadedEmits : Nat
deriving DecidableEq, Repr

namespace Tex

/-- Model of `removeEventListener('canplay', this._onCanPlay)` followed by
`removeEventListener('canplaythrough', this._onCanPlay)`: drops exactly the
registrations of the bound `_onCanPlay` for those two event names. -/
def removeCanPlayListeners (s : Source) : Source :=
  { s with listeners := s.listeners.filter fun p =>
      !((p.1 == "canplay" || p.1 == "canplaythrough") && p.2 == Handler.canPlayH) }

/-- The handler `_onCanPlay`: sets `hasLoaded`, then — only if the `source` reference is
still present — detaches the readiness listeners, copies the native video
dimensions onto the texture, starts playback, and emits `loaded` exactly when
the `__loaded` guard is still unset. -/
def onCanPlay (t : Tex) : Tex :=
  let t := { t with hasLoaded := true }
  match t.source with
  | none => t
  | some s =>
      let s := removeCanPlayListeners s
      let t := { t with source := some s, width := s.videoWidth, height := s.videoHeight }
      let s := { s with playCalls := s.playCalls + 1 }
      let t := { t with source := some s }
      if t.loadedFlag then t
      else { t with loadedFlag := true, loadedEmits := t.loadedEmits + 1 }

/-- The frame callback `_onUpdate`: when `autoUpdate` holds, re-requests an animation frame and
pushes the current frame via the base texture's `update()`; otherwise does
nothing. -/
def onUpdate (t : Tex) : Tex :=
  if t.autoUpdate then
    { t with rafCalls := t.rafCalls + 1, updateCalls := t.updateCalls + 1 }
  else t

/-- The second half of `_onPlayStart`: when `autoUpdate` is still false,
request the first animation frame and set `autoUpdate`. -/
def startAutoUpdate (t : Tex) : Tex :=
  if !t.autoUpdate then
    { t with rafCalls := t.rafCalls + 1, autoUpdate := true }
  else t

/-- The handler `_onPlayStart`: forces the readiness transition when `hasLoaded` is still
false, then starts the refresh loop when it is not yet running. -/
def onPlayStart (t : Tex) : Tex :=
  let t := if !t.hasLoaded then t.onCanPlay else t
  t.startAutoUpdate

/-- The handler `_onPlayStop` clears `autoUpdate`. -/
def onPlayStop (t : Tex) : Tex :=
  { t with autoUpdate := false }

/-- Dispatch table from a registered handler to the member function it is a
binding of. -/
def applyHandler : Handler → Tex → Tex
  | Handler.canPlayH => onCanPlay
  | Handler.playH => onPlayStart
  | Handler.pauseH => onPlayStop

/-- Delivery of a resource event `ev` to the texture: every listener the
texture's resource has registered for `ev` runs, in registration order. -/
def dispatchEvent (ev : String) (t : Tex) : Tex :=
  match t.source with
  | none => t
  | some s => (s.listeners.filter (fun p => p.1 == ev)).foldl (fun a p => applyHandler p.2 a) t

end Tex

/-- The `VideoBaseTexture` constructor, run on a (non-null) video element.
Returns the mutated video element together with the fresh instance.  The
base-class constructor `super(source, scaleMode)` is outside this repository;
per the spec it records readiness from `source.complete` and the element's
dimensions, which is how it is modelled here. -/
def constructVideoBaseTexture (src : Source) : Source × Tex :=
  let src :=
    if (src.readyState = HAVE_ENOUGH_DATA ∨ src.readyState = HAVE_FUTURE_DATA)
        ∧ src.width ≠ 0 ∧ src.height ≠ 0 then
      { src with complete := true }
    else src
  let t : Tex :=
    { source := some src, autoUpdate := false, hasLoaded := src.complete,
      loadedFlag := false, width := src.width, height := src.height,
      rafCalls := 0, updateCalls := 0, loadedEmits := 0 }
  let src :=
    if !src.complete then
      { src with listeners := src.listeners ++
          [("canplay", Handler.canPlayH), ("canplaythrough", Handler.canPlayH),
           ("play", Handler.playH), ("pause", Handler.pauseH)] }
    else src
  (src, { t with source := some src })

/-!
Lifetimes of `_onCanPlay` deliveries

To reason about arbitrary sequences of `_onCanPlay` invocations over a
texture's lifetime — including deliveries that arrive after the resource
reference was torn down — we run the texture through a list of events. -/

/-- One event in a texture's can-play lifetime: `fire` is a delivery of the
can-play signal (runs `_onCanPlay`); `destroySrc` is the resource reference
being torn down (the `source` field becoming null). -/
inductive CPEvent where
  | fire
  | destroySrc
deriving DecidableEq, Repr

/-- Effect of one lifetime event on the texture. -/
def cpStep : CPEvent → Tex → Tex
  | CPEvent.fire, t => t.onCanPlay
  | CPEvent.destroySrc, t => { t with source := none }

/-- Run a whole lifetime of events. -/
def cpRun (evs : List CPEvent) (t : Tex) : Tex :=
  evs.foldl (fun a e => cpStep e a) t

/-- Whether some `fire` event in the lifetime finds the resource reference
present at the moment it is delivered. -/
def cpHit (t : Tex) : List CPEvent → Bool
  | [] => false
  | e :: rest =>
      (match e with
       | CPEvent.fire => t.source.isSome
       | CPEvent.destroySrc => false) || cpHit (cpStep e t) rest

/-!
The static side: `utils.BaseTextureCache`, `utils.uid`, `fromVideo`,
`fromUrl` and `destroy`

`utils.uid` and `utils.BaseTextureCache` live outside this file's source.
Modelled from the spec: the identity tag is an abstract identifier attached
lazily to a video resource the first time it is wrapped, used as the cache
key", generated fresh and unique per call — embedded as a counter `nextUid`
handing out `Nat` tags, and the cache as an association list from tag to
texture.  Textures and video elements are heap objects with reference
semantics, so the world keeps them in lists and a texture or video is
identified by its index; `texSrc` records each texture's `this.source`
reference. -/

/-- Lookup in `utils.BaseTextureCache`. -/
def cacheLookup (tag : Nat) : List (Nat × Nat) → Option Nat
  | [] => none
  | p :: rest => if p.1 = tag then some p.2 else cacheLookup tag rest

/-- Model of `delete utils.BaseTextureCache[tag]`. -/
def cacheErase (tag : Nat) (c : List (Nat × Nat)) : List (Nat × Nat) :=
  c.filter fun p => p.1 != tag

/-- The world: all video elements, all constructed `VideoBaseTexture`
instances (a texture's per-instance state as of construction), each texture's
video reference, the shared `BaseTextureCache`, and the `uid` counter. -/
structure World where
  videos : List Source
  textures : List Tex
  texSrc : List Nat
  cache : List (Nat × Nat)
  nextUid : Nat
deriving DecidableEq, Repr

namespace VideoBaseTexture

/-- The tail of `fromVideo` once the video (at index `v`, with element state
`vid`) is known to carry the tag `tag`: look the tag up in the cache; on a
miss, run the constructor, append the new instance and cache it. -/
def fromVideoCore (w : World) (v : Nat) (vid : Source) (tag : Nat) : World × Nat :=
  match cacheLookup tag w.cache with
  | some ti => (w, ti)
  | none =>
      let p := constructVideoBaseTexture vid
      ({ w with videos := w.videos.set v p.1,
                textures := w.textures ++ [p.2],
                texSrc := w.texSrc ++ [v],
                cache := (tag, w.textures.length) :: w.cache },
       w.textures.length)

/-- Static method `VideoBaseTexture.fromVideo(video)`: tag the video if it is untagged,
then return the cached texture for the tag, constructing it on a miss.
`none` when `v` is not a video of the world. -/
def fromVideo (w : World) (v : Nat) : Option (World × Nat) :=
  match w.videos[v]? with
  | none => none
  | some vid =>
      match vid.pixiId with
      | some tg => some (fromVideoCore w v vid tg)
      | none =>
          let vid' := { vid with pixiId := some w.nextUid }
          some (fromVideoCore
            { w with videos := w.videos.set v vid', nextUid := w.nextUid + 1 }
            v vid' w.nextUid)

/-- Method `destroy()` on the texture at index `ti`: when `this.source` is present
and carries a `_pixiId`, drop the cache entry for it and clear the tag from
the video element; the base class `destroy` (pixel-storage release, outside
this file's source) has no effect on the state modelled here.  `none` when
`ti` is not a texture of the world. -/
def destroy (w : World) (ti : Nat) : Option World :=
  match w.texSrc[ti]? with
  | none => none
  | some vi =>
      match w.videos[vi]? with
      | none => some w
      | some vid =>
          match vid.pixiId with
          | none => some w
          | some tag =>
              some { w with cache := cacheErase tag w.cache,
                            videos := w.videos.set vi { vid with pixiId := none } }

end VideoBaseTexture

/-!
`fromUrl` / `createSource` -/

/-- Model of `path.lastIndexOf('.')` on the character list, as JS: the index of the
last occurrence, or `-1` when absent. -/
def lastIndexOfChar (c : Char) : List Char → Option Nat
  | [] => none
  | x :: xs =>
      match lastIndexOfChar c xs with
      | some i => some (i + 1)
      | none => if x = c then some 0 else none

/-- Model of `path.lastIndexOf('.')` returning JS's `-1` for "absent". -/
def jsLastIndexOfDot (path : String) : Int :=
  match lastIndexOfChar '.' path.toList with
  | some i => (i : Int)
  | none => -1

/-- Model of `path.substr(path.lastIndexOf('.') + 1)`. -/
def substrAfterLastDot (path : String) : String :=
  String.mk (path.toList.drop (jsLastIndexOfDot path + 1).toNat)

/-- The helper `createSource(path, type)`: when `type` is falsy (absent or the empty
string), infer it as `video/` followed by the substring of `path` after its
last dot. -/
def createSource (path : String) (type : Option String) : SourceElem :=
  let ty :=
    match type with
    | none => "video/" ++ substrAfterLastDot path
    | some s => if s = "" then "video/" ++ substrAfterLastDot path else s
  { src := path, type := ty }

/-- One entry of the `videoSrc` argument of `fromUrl`: a bare URL string (its
`.src` and `.mime` are undefined) or an object `{ src, mime }`. -/
inductive VideoDescriptor where
  | url (s : String)
  | obj (src : String) (mime : Option String)
deriving DecidableEq, Repr

/-- The JS expression `videoSrc[i].src || videoSrc[i]` (for a bare string the `.src` access is
undefined and the string itself is used; objects carry a non-empty `src`). -/
def descSrc : VideoDescriptor → String
  | VideoDescriptor.url s => s
  | VideoDescriptor.obj s _ => s

/-- The JS expression `videoSrc[i].mime` (undefined on a bare string). -/
def descMime : VideoDescriptor → Option String
  | VideoDescriptor.url _ => none
  | VideoDescriptor.obj _ m => m

/-- The `videoSrc` argument of `fromUrl`: a single descriptor or an array. -/
inductive VideoSrcArg where
  | single (d : VideoDescriptor)
  | arr (ds : List VideoDescriptor)
deriving DecidableEq, Repr

/-- The child `<source>` element appended for one descriptor. -/
def mkSourceElem (d : VideoDescriptor) : SourceElem :=
  createSource (descSrc d) (descMime d)

/-- Model of `document.createElement('video')`: a fresh video element with no data
buffered, no dimensions, no tag, no listeners and no children. -/
def newVideoElement : Source :=
  { readyState := 0, width := 0, height := 0, videoWidth := 0, videoHeight := 0,
    complete := false, pixiId := none, listeners := [], playCalls := 0,
    loadCalls := 0, children := [] }

/-- The video element synthesized by `fromUrl` just before it delegates to
`fromVideo`: one appended child per descriptor, in order, then `load()` and
`play()`. -/
def synthVideo (a : VideoSrcArg) : Source :=
  let children :=
    match a with
    | VideoSrcArg.single d => [mkSourceElem d]
    | VideoSrcArg.arr ds => ds.map mkSourceElem
  { newVideoElement with children := children, loadCalls := 1, playCalls := 1 }

namespace VideoBaseTexture

/-- Static method `VideoBaseTexture.fromUrl(videoSrc)`: synthesize the video element and
delegate to `fromVideo`. -/
def fromUrl (w : World) (a : VideoSrcArg) : Option (World × Nat) :=
  fromVideo { w with videos := w.videos ++ [synthVideo a] } w.videos.length

end VideoBaseTexture

/-- The cache never holds a tag that the `uid` counter has not handed out
yet.  This is the freshness guarantee of `utils.uid` (modelled from the
spec: tags are "generated fresh and unique"). -/
def freshTags (w : World) : Prop :=
  ∀ p ∈ w.cache, p.1 < w.nextUid

/-!
Concrete fixtures (used by the witnesses) -/

/-- A not-yet-buffered video element with native dimensions 640×360. -/
def vid0 : Source :=
  { readyState := 0, width := 0, height := 0, videoWidth := 640, videoHeight := 360,
    complete := false, pixiId := none, listeners := [], playCalls := 0,
    loadCalls := 0, children := [] }

/-- The texture the constructor builds over `vid0`. -/
def tex0 : Tex := (constructVideoBaseTexture vid0).2

/-- The texture `tex0` after its resource reference has been torn down. -/
def texNone : Tex := { tex0 with source := none }

/-- A fully buffered 2×2 video element. -/
def vidC : Source :=
  { readyState := 4, width := 2, height := 2, videoWidth := 2, videoHeight := 2,
    complete := false, pixiId := none, listeners := [], playCalls := 0,
    loadCalls := 0, children := [] }

/-- A second not-yet-buffered video element. -/
def vid1 : Source := { vid0 with videoWidth := 320, videoHeight := 200 }

/-- A world holding the two untagged videos `vid0`, `vid1` and nothing else. -/
def w0 : World :=
  { videos := [vid0, vid1], textures := [], texSrc := [], cache := [], nextUid := 0 }

/-- Result world of wrapping video 0 of `w0`. -/
def w1 : World := ((VideoBaseTexture.fromVideo w0 0).getD (w0, 0)).1

/-- Result world of wrapping video 0 of `w1` a second time. -/
def w2 : World := ((VideoBaseTexture.fromVideo w1 0).getD (w1, 0)).1

/-- Result world of wrapping video 1 of `w1`. -/
def w1b : World := ((VideoBaseTexture.fromVideo w1 1).getD (w1, 0)).1

/-- The world `w1` after destroying the texture created for video 0. -/
def w1d : World := (VideoBaseTexture.destroy w1 0).getD w1

/-- The element state of video 0 inside `w1` (tagged with uid 0 and run
through the constructor). -/
def vidW1 : Source := (constructVideoBaseTexture { vid0 with pixiId := some 0 }).1

/-!
Helper lemmas about the handlers -/

theorem onCanPlay_hasLoaded (t : Tex) : t.onCanPlay.hasLoaded = true := by
  unfold Tex.onCanPlay
  cases h : t.source <;> simp [h]
  split <;> rfl

theorem onCanPlay_rafCalls (t : Tex) : t.onCanPlay.rafCalls = t.rafCalls := by
  unfold Tex.onCanPlay
  cases h : t.source <;> simp [h]
  split <;> rfl

theorem onCanPlay_autoUpdate (t : Tex) : t.onCanPlay.autoUpdate = t.autoUpdate := by
  unfold Tex.onCanPlay
  cases h : t.source <;> simp [h]
  split <;> rfl

theorem startAutoUpdate_hasLoaded (t : Tex) : t.startAutoUpdate.hasLoaded = t.hasLoaded := by
  unfold Tex.startAutoUpdate
  split <;> rfl

theorem startAutoUpdate_autoUpdate (t : Tex) : t.startAutoUpdate.autoUpdate = true := by
  unfold Tex.startAutoUpdate
  split
  case isTrue => rfl
  case isFalse h => simpa using h

theorem onPlayStart_hasLoaded (t : Tex) : t.onPlayStart.hasLoaded = true := by
  unfold Tex.onPlayStart
  rw [startAutoUpdate_hasLoaded]
  split
  · exact onCanPlay_hasLoaded t
  · next h => simpa using h

theorem onPlayStart_autoUpdate (t : Tex) : t.onPlayStart.autoUpdate = true := by
  unfold Tex.onPlayStart
  exact startAutoUpdate_autoUpdate _

theorem onPlayStart_of_ready (t : Tex) (h1 : t.hasLoaded = true) (h2 : t.autoUpdate = true) :
    t.onPlayStart = t := by
  unfold Tex.onPlayStart Tex.startAutoUpdate
  simp [h1, h2]

theorem startAutoUpdate_rafCalls (t : Tex) (h : t.autoUpdate = false) :
    t.startAutoUpdate.rafCalls = t.rafCalls + 1 := by
  unfold Tex.startAutoUpdate
  simp [h]

/-!
Claim theorems: the per-instance handlers -/

/-- C1 counterexample: on a texture whose resource reference is absent and
whose `hasLoaded` is still false, `_onCanPlay` is not a no-op — it flips
`hasLoaded`. -/
theorem onCanPlay_missing_source_not_noop :
    texNone.onCanPlay ≠ texNone ∧ texNone.hasLoaded = false ∧
      texNone.onCanPlay.hasLoaded = true := by
  decide

/-- C1 (amended): when the resource reference is absent at firing time,
`_onCanPlay` sets `hasLoaded` to `true` and changes nothing else: no listener
is detached, the dimensions are untouched, playback is not started, and no
`loaded` notification is emitted. -/
theorem onCanPlay_missing_source_sets_only_hasLoaded (t : Tex) (h : t.source = none) :
    t.onCanPlay = { t with hasLoaded := true } := by
  unfold Tex.onCanPlay
  simp [h]

theorem onCanPlay_missing_source_sets_only_hasLoaded_witness :
    texNone.onCanPlay = { texNone with hasLoaded := true } :=
  onCanPlay_missing_source_sets_only_hasLoaded texNone rfl

/-- C3: when `_onCanPlay` fires on a texture whose resource reference is
present, the texture's `width` and `height` become exactly the resource's
`videoWidth` and `videoHeight`. -/
theorem onCanPlay_sets_native_dimensions (t : Tex) (s : Source) (h : t.source = some s) :
    t.onCanPlay.width = s.videoWidth ∧ t.onCanPlay.height = s.videoHeight := by
  unfold Tex.onCanPlay
  simp [h]
  constructor <;> · split <;> rfl

theorem onCanPlay_sets_native_dimensions_witness :
    tex0.onCanPlay.width = (constructVideoBaseTexture vid0).1.videoWidth ∧
      tex0.onCanPlay.height = (constructVideoBaseTexture vid0).1.videoHeight :=
  onCanPlay_sets_native_dimensions tex0 (constructVideoBaseTexture vid0).1 rfl

/-- C4: on a texture that has not yet recorded readiness, `_onPlayStart` is
exactly the readiness transition `_onCanPlay` followed by the auto-update
enabling step, so afterwards `hasLoaded` (and `autoUpdate`) hold. -/
theorem onPlayStart_forces_readiness (t : Tex) (h : t.hasLoaded = false) :
    t.onPlayStart = t.onCanPlay.startAutoUpdate ∧
      t.onPlayStart.hasLoaded = true ∧ t.onPlayStart.autoUpdate = true := by
  refine ⟨?_, onPlayStart_hasLoaded t, onPlayStart_autoUpdate t⟩
  unfold Tex.onPlayStart
  simp [h]

theorem onPlayStart_forces_readiness_witness :
    tex0.onPlayStart = tex0.onCanPlay.startAutoUpdate ∧
      tex0.onPlayStart.hasLoaded = true ∧ tex0.onPlayStart.autoUpdate = true :=
  onPlayStart_forces_readiness tex0 rfl

/-- C5: starting from a texture whose refresh loop is not running, two
consecutive `_onPlayStart` calls request exactly one animation frame, and the
second call changes nothing at all. -/
theorem onPlayStart_idempotent (t : Tex) (h : t.autoUpdate = false) :
    t.onPlayStart.onPlayStart = t.onPlayStart ∧
      t.onPlayStart.onPlayStart.rafCalls = t.rafCalls + 1 := by
  have hsecond : t.onPlayStart.onPlayStart = t.onPlayStart :=
    onPlayStart_of_ready _ (onPlayStart_hasLoaded t) (onPlayStart_autoUpdate t)
  refine ⟨hsecond, ?_⟩
  rw [hsecond]
  unfold Tex.onPlayStart
  split
  · rw [startAutoUpdate_rafCalls _ (by rw [onCanPlay_autoUpdate]; exact h),
      onCanPlay_rafCalls]
  · exact startAutoUpdate_rafCalls t h

theorem onPlayStart_idempotent_witness :
    tex0.onPlayStart.onPlayStart = tex0.onPlayStart ∧
      tex0.onPlayStart.onPlayStart.rafCalls = tex0.rafCalls + 1 :=
  onPlayStart_idempotent tex0 rfl

/-- C6: `_onPlayStop` clears `autoUpdate`; a frame tick arriving afterwards
does nothing and schedules nothing; a frame tick with `autoUpdate` set
requests the next frame and pushes the current frame once. -/
theorem onPlayStop_terminates_loop (t : Tex) :
    t.onPlayStop.autoUpdate = false ∧
      t.onPlayStop.onUpdate = t.onPlayStop ∧
      (t.autoUpdate = true →
        t.onUpdate = { t with rafCalls := t.rafCalls + 1,
                              updateCalls := t.updateCalls + 1 }) := by
  refine ⟨rfl, ?_, ?_⟩
  · unfold Tex.onUpdate Tex.onPlayStop
    simp
  · intro h
    unfold Tex.onUpdate
    simp [h]

theorem onPlayStop_terminates_loop_witness :
    tex0.onPlayStart.onUpdate
      = { tex0.onPlayStart with rafCalls := tex0.onPlayStart.rafCalls + 1,
                                updateCalls := tex0.onPlayStart.updateCalls + 1 } :=
  (onPlayStop_terminates_loop tex0.onPlayStart).2.2 (onPlayStart_autoUpdate tex0)

/-!
The one-shot `loaded` notification (C2) -/

theorem onCanPlay_loadedFlag_mono (t : Tex) (h : t.loadedFlag = true) :
    t.onCanPlay.loadedFlag = true := by
  unfold Tex.onCanPlay
  cases hs : t.source <;> simp [hs, h]

theorem onCanPlay_loadedFlag_of_some (t : Tex) (s : Source) (h : t.source = some s) :
    t.onCanPlay.loadedFlag = true := by
  unfold Tex.onCanPlay
  simp [h]
  split
  · next hf => exact hf
  · rfl

theorem cpStep_loadedFlag_mono (e : CPEvent) (t : Tex) (h : t.loadedFlag = true) :
    (cpStep e t).loadedFlag = true := by
  cases e
  · exact onCanPlay_loadedFlag_mono t h
  · simpa [cpStep] using h

theorem cpRun_loadedFlag_mono (evs : List CPEvent) :
    ∀ t : Tex, t.loadedFlag = true → (cpRun evs t).loadedFlag = true := by
  induction evs with
  | nil => intro t h; simpa [cpRun] using h
  | cons e rest ih =>
      intro t h
      have hstep := cpStep_loadedFlag_mono e t h
      simpa [cpRun] using ih (cpStep e t) hstep

theorem onCanPlay_emits_inv (t : Tex)
    (h : (t.loadedFlag = false ∧ t.loadedEmits = 0) ∨
         (t.loadedFlag = true ∧ t.loadedEmits = 1)) :
    (t.onCanPlay.loadedFlag = false ∧ t.onCanPlay.loadedEmits = 0) ∨
      (t.onCanPlay.loadedFlag = true ∧ t.onCanPlay.loadedEmits = 1) := by
  unfold Tex.onCanPlay
  cases hs : t.source
  · simpa using h
  · rcases h with ⟨hf, he⟩ | ⟨hf, he⟩ <;> simp [hs, hf, he]

theorem cpStep_emits_inv (e : CPEvent) (t : Tex)
    (h : (t.loadedFlag = false ∧ t.loadedEmits = 0) ∨
         (t.loadedFlag = true ∧ t.loadedEmits = 1)) :
    ((cpStep e t).loadedFlag = false ∧ (cpStep e t).loadedEmits = 0) ∨
      ((cpStep e t).loadedFlag = true ∧ (cpStep e t).loadedEmits = 1) := by
  cases e
  case destroySrc => simpa [cpStep] using h
  case fire => exact onCanPlay_emits_inv t h

theorem cpRun_emits_inv (evs : List CPEvent) :
    ∀ t : Tex,
      (t.loadedFlag = false ∧ t.loadedEmits = 0) ∨
        (t.loadedFlag = true ∧ t.loadedEmits = 1) →
      ((cpRun evs t).loadedFlag = false ∧ (cpRun evs t).loadedEmits = 0) ∨
        ((cpRun evs t).loadedFlag = true ∧ (cpRun evs t).loadedEmits = 1) := by
  induction evs with
  | nil => intro t h; simpa [cpRun] using h
  | cons e rest ih =>
      intro t h
      simpa [cpRun] using ih (cpStep e t) (cpStep_emits_inv e t h)

theorem cpHit_loadedFlag (evs : List CPEvent) :
    ∀ t : Tex, cpHit t evs = true → (cpRun evs t).loadedFlag = true := by
  induction evs with
  | nil => intro t h; simp [cpHit] at h
  | cons e rest ih =>
      intro t h
      simp only [cpHit, Bool.or_eq_true] at h
      rcases h with h | h
      · cases e
        case fire =>
            rcases Option.isSome_iff_exists.mp (by simpa using h) with ⟨s, hs⟩
            have hstep : (cpStep CPEvent.fire t).loadedFlag = true :=
              onCanPlay_loadedFlag_of_some t s hs
            simpa [cpRun] using cpRun_loadedFlag_mono rest _ hstep
        case destroySrc => simp at h
      · simpa [cpRun] using ih (cpStep e t) h

/-- C2: over any lifetime of `_onCanPlay` deliveries (with the resource
possibly torn down part-way), starting from a fresh texture, if at least one
delivery finds the resource reference present then the `loaded` notification
is emitted exactly once. -/
theorem onCanPlay_loaded_emitted_once (t : Tex) (evs : List CPEvent)
    (h1 : t.loadedFlag = false) (h2 : t.loadedEmits = 0)
    (h3 : cpHit t evs = true) :
    (cpRun evs t).loadedEmits = 1 := by
  have hflag := cpHit_loadedFlag evs t h3
  rcases cpRun_emits_inv evs t (Or.inl ⟨h1, h2⟩) with ⟨hf, _⟩ | ⟨_, he⟩
  · rw [hflag] at hf; cases hf
  · exact he

theorem onCanPlay_loaded_emitted_once_witness :
    (cpRun [CPEvent.fire, CPEvent.fire] tex0).loadedEmits = 1 :=
  onCanPlay_loaded_emitted_once tex0 [CPEvent.fire, CPEvent.fire]
    (by decide) (by decide) (by decide)

/-!
The already-complete construction path (C10) -/

theorem dispatchEvent_no_listeners (t : Tex) (s : Source) (h : t.source = some s)
    (hl : s.listeners = []) (ev : String) : Tex.dispatchEvent ev t = t := by
  unfold Tex.dispatchEvent
  simp [h, hl]

theorem dispatch_fold_no_listeners (t : Tex) (s : Source) (h : t.source = some s)
    (hl : s.listeners = []) :
    ∀ evs : List String, evs.foldl (fun a e => Tex.dispatchEvent e a) t = t := by
  intro evs
  induction evs with
  | nil => rfl
  | cons e rest ih =>
      simpa [dispatchEvent_no_listeners t s h hl e] using ih

/-- C10: on a video element that already reports sufficient buffered data and
non-zero dimensions, the constructor registers no listeners at all, so no
resource-delivered event can reach the texture — any sequence of dispatched
events leaves it untouched (in particular `autoUpdate` stays false) — while a
direct `_onPlayStart` call does start the refresh loop. -/
theorem construct_complete_registers_nothing (s : Source)
    (h0 : s.listeners = [])
    (h1 : s.readyState = HAVE_ENOUGH_DATA ∨ s.readyState = HAVE_FUTURE_DATA)
    (h2 : s.width ≠ 0) (h3 : s.height ≠ 0) :
    (constructVideoBaseTexture s).1.listeners = [] ∧
      (constructVideoBaseTexture s).2.source = some (constructVideoBaseTexture s).1 ∧
      (constructVideoBaseTexture s).2.autoUpdate = false ∧
      (∀ evs : List String,
        evs.foldl (fun a e => Tex.dispatchEvent e a) (constructVideoBaseTexture s).2
          = (constructVideoBaseTexture s).2) ∧
      (constructVideoBaseTexture s).2.onPlayStart.autoUpdate = true := by
  have hlist : (constructVideoBaseTexture s).1.listeners = [] := by
    rcases h1 with h1 | h1 <;> simp [constructVideoBaseTexture, h1, h2, h3, h0]
  have hsrc : (constructVideoBaseTexture s).2.source = some (constructVideoBaseTexture s).1 := by
    rcases h1 with h1 | h1 <;> simp [constructVideoBaseTexture, h1, h2, h3]
  have hauto : (constructVideoBaseTexture s).2.autoUpdate = false := by
    rcases h1 with h1 | h1 <;> simp [constructVideoBaseTexture, h1, h2, h3]
  exact ⟨hlist, hsrc, hauto,
    dispatch_fold_no_listeners _ _ hsrc hlist,
    onPlayStart_autoUpdate _⟩

theorem construct_complete_registers_nothing_witness :
    (constructVideoBaseTexture vidC).1.listeners = [] ∧
      ["play", "canplay", "pause"].foldl (fun a e => Tex.dispatchEvent e a)
          (constructVideoBaseTexture vidC).2
        = (constructVideoBaseTexture vidC).2 ∧
      (constructVideoBaseTexture vidC).2.onPlayStart.autoUpdate = true := by
  have h := construct_complete_registers_nothing vidC rfl (Or.inl rfl)
    (by decide) (by decide)
  exact ⟨h.1, h.2.2.2.1 ["play", "canplay", "pause"], h.2.2.2.2⟩

/-!
Helper lemmas about the world model -/

theorem construct_pixiId (s : Source) :
    (constructVideoBaseTexture s).1.pixiId = s.pixiId := by
  unfold constructVideoBaseTexture
  dsimp only
  split <;> split <;> rfl

theorem construct_children (s : Source) :
    (constructVideoBaseTexture s).1.children = s.children := by
  unfold constructVideoBaseTexture
  dsimp only
  split <;> split <;> rfl

theorem cacheLookup_fresh (c : List (Nat × Nat)) (u n : Nat)
    (h : ∀ p ∈ c, p.1 < u) (hn : u ≤ n) : cacheLookup n c = none := by
  induction c with
  | nil => rfl
  | cons p rest ih =>
      have hp : p.1 < u := h p (List.mem_cons_self p rest)
      unfold cacheLookup
      rw [if_neg (by omega)]
      exact ih fun q hq => h q (List.mem_cons_of_mem p hq)

theorem cacheLookup_erase_self (tag : Nat) (c : List (Nat × Nat)) :
    cacheLookup tag (cacheErase tag c) = none := by
  induction c with
  | nil => rfl
  | cons p rest ih =>
      unfold cacheErase at ih ⊢
      rw [List.filter_cons]
      by_cases hp : p.1 = tag
      · simpa [hp] using ih
      · simpa [hp, cacheLookup] using ih

theorem cacheLookup_erase_of_none (n tag : Nat) (c : List (Nat × Nat))
    (h : cacheLookup n c = none) : cacheLookup n (cacheErase tag c) = none := by
  induction c with
  | nil => rfl
  | cons p rest ih =>
      unfold cacheLookup at h
      by_cases hp : p.1 = n
      · rw [if_pos hp] at h; cases h
      · rw [if_neg hp] at h
        unfold cacheErase at ih ⊢
        rw [List.filter_cons]
        by_cases ht : p.1 = tag
        · simpa [ht] using ih h
        · simpa [ht, cacheLookup, hp] using ih h

namespace VideoBaseTexture

theorem fromVideoCore_post (w : World) (v : Nat) (vid : Source) (tag : Nat)
    (hv : w.videos[v]? = some vid) (hid : vid.pixiId = some tag) :
    ∃ vid1, (fromVideoCore w v vid tag).1.videos[v]? = some vid1 ∧
      vid1.pixiId = some tag ∧
      cacheLookup tag (fromVideoCore w v vid tag).1.cache
        = some (fromVideoCore w v vid tag).2 := by
  unfold fromVideoCore
  cases hc : cacheLookup tag w.cache with
  | some ti => exact ⟨vid, by simpa using hv, hid, by simpa using hc⟩
  | none =>
      have hlen : v < w.videos.length := (List.getElem?_eq_some_iff.mp hv).1
      refine ⟨(constructVideoBaseTexture vid).1, ?_, ?_, ?_⟩
      · simpa using List.getElem?_set_eq_of_lt _ (by simpa using hlen)
      · rw [construct_pixiId]; exact hid
      · simp [cacheLookup]

theorem fromVideo_post (w : World) (v : Nat) (w1 : World) (t1 : Nat)
    (h : fromVideo w v = some (w1, t1)) :
    ∃ vid1 tag, w1.videos[v]? = some vid1 ∧ vid1.pixiId = some tag ∧
      cacheLookup tag w1.cache = some t1 := by
  unfold fromVideo at h
  cases hv : w.videos[v]? with
  | none => rw [hv] at h; cases h
  | some vid =>
      rw [hv] at h
      dsimp only at h
      cases hid : vid.pixiId with
      | some tg =>
          rw [hid] at h
          dsimp only at h
          have h' : fromVideoCore w v vid tg = (w1, t1) := by
            injection h
          rcases fromVideoCore_post w v vid tg hv hid with ⟨vid1, ha, hb, hc⟩
          rw [h'] at ha hc
          exact ⟨vid1, tg, ha, hb, hc⟩
      | none =>
          rw [hid] at h
          dsimp only at h
          have hlen : v < w.videos.length := (List.getElem?_eq_some_iff.mp hv).1
          have hv' : ({ w with videos := w.videos.set v { vid with pixiId := some w.nextUid },
                               nextUid := w.nextUid + 1 } : World).videos[v]?
              = some { vid with pixiId := some w.nextUid } := by
            simpa using List.getElem?_set_eq_of_lt _ (by simpa using hlen)
          have h' : fromVideoCore
              { w with videos := w.videos.set v { vid with pixiId := some w.nextUid },
                       nextUid := w.nextUid + 1 }
              v { vid with pixiId := some w.nextUid } w.nextUid = (w1, t1) := by
            injection h
          rcases fromVideoCore_post _ v { vid with pixiId := some w.nextUid } w.nextUid
              hv' rfl with ⟨vid1, ha, hb, hc⟩
          rw [h'] at ha hc
          exact ⟨vid1, w.nextUid, ha, hb, hc⟩

end VideoBaseTexture

namespace VideoBaseTexture

theorem fromVideo_untagged (w : World) (v : Nat) (vid : Source)
    (hv : w.videos[v]? = some vid) (hid : vid.pixiId = none)
    (hfresh : cacheLookup w.nextUid w.cache = none) :
    fromVideo w v = some
      ({ videos := (w.videos.set v { vid with pixiId := some w.nextUid }).set v
            (constructVideoBaseTexture { vid with pixiId := some w.nextUid }).1,
         textures := w.textures
            ++ [(constructVideoBaseTexture { vid with pixiId := some w.nextUid }).2],
         texSrc := w.texSrc ++ [v],
         cache := (w.nextUid, w.textures.length) :: w.cache,
         nextUid := w.nextUid + 1 }, w.textures.length) := by
  unfold fromVideo fromVideoCore
  rw [hv]
  dsimp only
  rw [hid]
  dsimp only
  rw [hfresh]

end VideoBaseTexture

/-- C7: wrapping the same video twice returns the identical cached instance;
wrapping two distinct untagged videos (under the uid-freshness guarantee)
returns two distinct instances. -/
theorem fromVideo_per_resource_identity :
    (∀ w v w1 t1 w2 t2,
        VideoBaseTexture.fromVideo w v = some (w1, t1) →
        VideoBaseTexture.fromVideo w1 v = some (w2, t2) → t2 = t1)
    ∧ (∀ w v1 v2 vd1 vd2 w1 t1 w2 t2, freshTags w → v1 ≠ v2 →
        w.videos[v1]? = some vd1 → vd1.pixiId = none →
        w.videos[v2]? = some vd2 → vd2.pixiId = none →
        VideoBaseTexture.fromVideo w v1 = some (w1, t1) →
        VideoBaseTexture.fromVideo w1 v2 = some (w2, t2) → t1 ≠ t2) := by
  constructor
  · intro w v w1 t1 w2 t2 h1 h2
    rcases VideoBaseTexture.fromVideo_post w v w1 t1 h1 with ⟨vid1, tag, ha, hb, hc⟩
    have h2' : VideoBaseTexture.fromVideo w1 v = some (w1, t1) := by
      unfold VideoBaseTexture.fromVideo VideoBaseTexture.fromVideoCore
      rw [ha]
      dsimp only
      rw [hb]
      dsimp only
      rw [hc]
    rw [h2'] at h2
    exact (Prod.mk.inj (Option.some.inj h2)).2.symm
  · intro w v1 v2 vd1 vd2 w1 t1 w2 t2 hfresh hne hv1 hid1 hv2 hid2 h1 h2
    have hf1 : cacheLookup w.nextUid w.cache = none :=
      cacheLookup_fresh w.cache w.nextUid w.nextUid hfresh le_rfl
    have L1 := VideoBaseTexture.fromVideo_untagged w v1 vd1 hv1 hid1 hf1
    rw [L1] at h1
    obtain ⟨hw1, ht1⟩ := Prod.mk.inj (Option.some.inj h1)
    have hv2' : w1.videos[v2]? = some vd2 := by
      rw [← hw1]
      dsimp only
      rw [List.getElem?_set_ne hne, List.getElem?_set_ne hne]
      exact hv2
    have hf2 : cacheLookup w1.nextUid w1.cache = none := by
      rw [← hw1]
      dsimp only
      unfold cacheLookup
      rw [if_neg (by dsimp only; omega)]
      exact cacheLookup_fresh w.cache w.nextUid (w.nextUid + 1) hfresh (by omega)
    have L2 := VideoBaseTexture.fromVideo_untagged w1 v2 vd2 hv2' hid2 hf2
    rw [L2] at h2
    obtain ⟨hw2, ht2⟩ := Prod.mk.inj (Option.some.inj h2)
    have hlen : w1.textures.length = w.textures.length + 1 := by
      rw [← hw1]
      dsimp only
      simp
    omega

theorem fromVideo_per_resource_identity_witness :
    (0 : Nat) = 0 ∧ (0 : Nat) ≠ 1 := by
  constructor
  · exact fromVideo_per_resource_identity.1 w0 0 w1 0 w2 0
      (by decide) (by decide)
  · exact fromVideo_per_resource_identity.2 w0 0 1 vid0 vid1 w1 0 w1b 1
      (by simp [freshTags, w0]) (by decide) (by decide) (by decide) (by decide)
      (by decide) (by decide) (by decide)

/-- C9: when the texture's resource carries an identity tag, `destroy()`
removes the cache entry for the tag and clears the tag from the video
element, so a subsequent `fromVideo` on the same raw video constructs and
returns a brand-new instance; when the resource carries no tag, `destroy()`
leaves the world (in particular the cache) unchanged. -/
theorem destroy_clears_cache_and_tag (w : World) (ti v : Nat) (vid : Source)
    (hts : w.texSrc[ti]? = some v) (hv : w.videos[v]? = some vid) :
    (∀ tag, vid.pixiId = some tag → freshTags w → ti < w.textures.length →
      ∃ w2, VideoBaseTexture.destroy w ti = some w2 ∧
        cacheLookup tag w2.cache = none ∧
        w2.videos[v]? = some { vid with pixiId := none } ∧
        ∃ w3 t2, VideoBaseTexture.fromVideo w2 v = some (w3, t2) ∧
          t2 = w2.textures.length ∧ ti < t2 ∧
          w3.textures.length = w2.textures.length + 1)
    ∧ (vid.pixiId = none → VideoBaseTexture.destroy w ti = some w) := by
  constructor
  · intro tag htag hfresh hti
    have hlen : v < w.videos.length := (List.getElem?_eq_some_iff.mp hv).1
    have hd : VideoBaseTexture.destroy w ti = some
        { w with cache := cacheErase tag w.cache,
                 videos := w.videos.set v { vid with pixiId := none } } := by
      unfold VideoBaseTexture.destroy
      rw [hts]
      dsimp only
      rw [hv]
      dsimp only
      rw [htag]
    refine ⟨_, hd, cacheLookup_erase_self tag w.cache, ?_, ?_⟩
    · show (w.videos.set v _)[v]? = _
      exact List.getElem?_set_eq_of_lt _ (by simpa using hlen)
    · have hv2 : ({ w with
              cache := cacheErase tag w.cache,
              videos := w.videos.set v { vid with pixiId := none } } : World).videos[v]?
          = some { vid with pixiId := none } := by
        dsimp only
        exact List.getElem?_set_eq_of_lt _ (by simpa using hlen)
      have hfresh2 : cacheLookup
          ({ w with
              cache := cacheErase tag w.cache,
              videos := w.videos.set v { vid with pixiId := none } } : World).nextUid
          ({ w with
              cache := cacheErase tag w.cache,
              videos := w.videos.set v { vid with pixiId := none } } : World).cache
          = none := by
        dsimp only
        exact cacheLookup_erase_of_none _ _ _
          (cacheLookup_fresh w.cache w.nextUid w.nextUid hfresh le_rfl)
      have L := VideoBaseTexture.fromVideo_untagged _ v { vid with pixiId := none }
        hv2 rfl hfresh2
      exact ⟨_, _, L, rfl, hti, by simp⟩
  · intro hnone
    unfold VideoBaseTexture.destroy
    rw [hts]
    dsimp only
    rw [hv]
    dsimp only
    rw [hnone]

theorem destroy_clears_cache_and_tag_witness :
    ∃ w2, VideoBaseTexture.destroy w1 0 = some w2 ∧
      cacheLookup 0 w2.cache = none ∧
      w2.videos[0]? = some { vidW1 with pixiId := none } ∧
      ∃ w3 t2, VideoBaseTexture.fromVideo w2 0 = some (w3, t2) ∧
        t2 = w2.textures.length ∧ 0 < t2 ∧
        w3.textures.length = w2.textures.length + 1 :=
  (destroy_clears_cache_and_tag w1 0 0 vidW1 (by decide) (by decide)).1 0
    (by decide) (by unfold freshTags; decide) (by decide)

/-!
`fromUrl` children and mime inference (C8) -/

theorem lastIndexOfChar_none_iff (c : Char) (cs : List Char) :
    lastIndexOfChar c cs = none ↔ c ∉ cs := by
  induction cs with
  | nil => simp [lastIndexOfChar]
  | cons x xs ih =>
      unfold lastIndexOfChar
      cases h : lastIndexOfChar c xs with
      | some i =>
          have hmem : c ∈ xs := by
            by_contra hc
            rw [← ih] at hc
            rw [h] at hc
            cases hc
          simp [hmem]
      | none =>
          have hnm : c ∉ xs := ih.mp h
          by_cases hx : x = c
          · simp [hx]
          · simp [hx, hnm]
            exact fun he => hx he.symm

theorem lastIndexOfChar_decomp (c : Char) (cs : List Char) :
    ∀ i, lastIndexOfChar c cs = some i →
      ∃ pre ext, cs = pre ++ c :: ext ∧ c ∉ ext ∧ cs.drop (i + 1) = ext := by
  induction cs with
  | nil => intro i h; cases h
  | cons x xs ih =>
      intro i h
      unfold lastIndexOfChar at h
      cases hx : lastIndexOfChar c xs with
      | some j =>
          rw [hx] at h
          obtain rfl : j + 1 = i := by injection h
          rcases ih j hx with ⟨pre, ext, he, hne, hdrop⟩
          exact ⟨x :: pre, ext, by rw [he]; rfl, hne,
            by simpa [List.drop_succ_cons] using hdrop⟩
      | none =>
          rw [hx] at h
          by_cases hxc : x = c
          · rw [if_pos hxc] at h
            obtain rfl : 0 = i := by injection h
            exact ⟨[], xs, by rw [hxc]; rfl, (lastIndexOfChar_none_iff c xs).mp hx, rfl⟩
          · rw [if_neg hxc] at h
            cases h

/-- C8: `fromUrl` synthesizes a fresh video element and hands it to
`fromVideo`; the element receives one child source declaration per
descriptor, in order; a bare URL with a dot in it gets the inferred mime
type `video/<substring after the last dot>`; in particular
`['a.webm', 'a.mp4']` yields `video/webm` and `video/mp4`. -/
theorem fromUrl_children_and_mime :
    (∀ w a, VideoBaseTexture.fromUrl w a
        = VideoBaseTexture.fromVideo
            { w with videos := w.videos ++ [synthVideo a] } w.videos.length)
    ∧ (∀ ds, (synthVideo (VideoSrcArg.arr ds)).children = ds.map mkSourceElem)
    ∧ (∀ s : String, '.' ∈ s.toList →
        ∃ pre ext, s.toList = pre ++ '.' :: ext ∧ '.' ∉ ext ∧
          (mkSourceElem (VideoDescriptor.url s)).type = "video/" ++ String.mk ext)
    ∧ (synthVideo (VideoSrcArg.arr
          [VideoDescriptor.url "a.webm", VideoDescriptor.url "a.mp4"])).children.map
        SourceElem.type = ["video/webm", "video/mp4"] := by
  refine ⟨fun w a => rfl, fun ds => rfl, ?_, by decide⟩
  intro s hs
  cases hL : lastIndexOfChar '.' s.toList with
  | none => exact absurd ((lastIndexOfChar_none_iff _ _).mp hL) (by simpa using hs)
  | some i =>
      rcases lastIndexOfChar_decomp '.' s.toList i hL with ⟨pre, ext, he, hne, hdrop⟩
      refine ⟨pre, ext, he, hne, ?_⟩
      show (createSource s none).type = _
      unfold createSource
      dsimp only
      unfold substrAfterLastDot jsLastIndexOfDot
      rw [hL]
      dsimp only
      have : ((i : Int) + 1).toNat = i + 1 := by omega
      rw [this, hdrop]

theorem fromUrl_children_and_mime_witness :
    ∃ pre ext, ("a.webm").toList = pre ++ '.' :: ext ∧ '.' ∉ ext ∧
      (mkSourceElem (VideoDescriptor.url "a.webm")).type = "video/" ++ String.mk ext :=
  fromUrl_children_and_mime.2.2.1 "a.webm" (by decide)
